import Mathlib

/-!
Verification of the ice-cream-mcp server (src/server/McpServer.ts) against its
specification. The TypeScript code is shallowly embedded: the tool's
`execute`, the dispatcher's CallTool handler with its try/catch boundary, the
ListTools handler, and the schema values are translated into executable Lean
definitions, and the spec's testable properties are proved about them.
-/

namespace IceCream

/-- A content block of a ToolResult. The source only ever produces blocks of
the form `{type: "text", text}`. -/
inductive Content
  | text (t : String)
deriving DecidableEq, Repr

/-- The result object a tool returns: `{content, isError}`. The source omits
the `isError` field on the success result; JavaScript reads the absent field
as `undefined`, which is falsy, so absence is modelled as `isError = false`. -/
structure ToolResult where
  content : List Content
  isError : Bool
deriving DecidableEq, Repr

/-- The arguments object of one invocation. The only field the tool reads is
`flavour` (line 56: `let { flavour } = args || {}`); `none` models the field
being absent (`undefined`). -/
structure Args where
  flavour : Option String
deriving DecidableEq, Repr

/-- The tagged outcome of an elicitation, as the code inspects it (line 75):
`result.action` is "accept", "decline" or "cancel"; on accept the code reads
`result.content?.flavour`, modelled as an `Option String` (`none` covers both
a missing `content` object and a missing `flavour` field). -/
inductive ElicitResponse
  | accept (flavour : Option String)
  | decline
  | cancel
deriving DecidableEq, Repr

/-- The behaviour of the injected `elicitInput` function on the single, fixed
request the tool sends: it either resolves with a response or throws (the
thrown error message as a `String`). -/
abbrev ElicitChannel := Except String ElicitResponse

/-- JavaScript truthiness of an optional string value: `undefined` and the
empty string are falsy, every other string is truthy. -/
def truthy : Option String → Bool
  | none => false
  | some s => s != ""

/-- The `switch (flavour)` cases of `execute` (lines 87-96): the fixed ordered
topping lists for the three declared flavours; any other string falls through
to the default case (`none`). -/
def toppingsFor : String → Option (List String)
  | "vanilla" => some ["caramel sauce", "rainbow sprinkles", "crushed cookies"]
  | "strawberry" => some ["white chocolate chips", "fresh berries", "whipped cream"]
  | "chocolate" => some ["chopped nuts", "marshmallows", "hot fudge"]
  | _ => none

/-- The error result for a cancelled or empty elicitation (lines 78-83). The
leading characters are the literal (mojibake) characters present in the source
file. -/
def cancelledResult : ToolResult :=
  { content := [Content.text "‚ùå Cancelled by user or no flavour selected."],
    isError := true }

/-- The error result of the switch's default case (lines 98-103). -/
def unknownFlavourResult : ToolResult :=
  { content := [Content.text "‚ùå Unknown flavour."],
    isError := true }

/-- The success sentence of lines 105-112:
`` `... For ${flavour} ice cream, the best toppings are: ${toppings.join(", ")}.` ``. -/
def successText (flavour : String) (toppings : List String) : String :=
  "üç¶ For " ++ flavour ++ " ice cream, the best toppings are: "
    ++ String.intercalate ", " toppings ++ "."

/-- Observable steps of one `execute` run, used to state the temporal claims:
`elicit` marks a call of the `elicitInput` channel, `lookup` marks entering
the flavour `switch` (the recommendation lookup), `produce` marks returning
the final ToolResult. -/
inductive Event
  | elicit
  | lookup
  | produce
deriving DecidableEq, Repr

/-- The `switch (flavour)` block (lines 86-112) with its trace: a defined
flavour is looked up in the fixed table; `undefined` (from an absent field
with no channel) matches no case and falls to the default. -/
def runSwitch (flavour : Option String) : ToolResult × List Event :=
  match flavour with
  | some f =>
    match toppingsFor f with
    | some tops =>
        ({ content := [Content.text (successText f tops)], isError := false },
         [Event.lookup, Event.produce])
    | none => (unknownFlavourResult, [Event.lookup, Event.produce])
  | none => (unknownFlavourResult, [Event.lookup, Event.produce])

/-- `IceCreamToppingRecommenderTool.execute` (lines 55-113), instrumented with
its event trace. The elicitation block runs only when `!flavour && elicitInput`
(line 58); an exception thrown by the channel propagates out of `execute` as
`Except.error` (the surrounding `await` rejects). On `accept` the value is
used only when `result.content?.flavour` is truthy (line 75); otherwise, and
on decline/cancel, the cancelled result is returned without reaching the
switch. -/
def executeTr (args : Args) (elicitInput : Option ElicitChannel) :
    Except String ToolResult × List Event :=
  match elicitInput with
  | some channel =>
    if truthy args.flavour then
      let p := runSwitch args.flavour
      (Except.ok p.1, p.2)
    else
      match channel with
      | Except.error e => (Except.error e, [Event.elicit])
      | Except.ok (ElicitResponse.accept c) =>
        if truthy c then
          let p := runSwitch c
          (Except.ok p.1, Event.elicit :: p.2)
        else (Except.ok cancelledResult, [Event.elicit, Event.produce])
      | Except.ok ElicitResponse.decline =>
          (Except.ok cancelledResult, [Event.elicit, Event.produce])
      | Except.ok ElicitResponse.cancel =>
          (Except.ok cancelledResult, [Event.elicit, Event.produce])
  | none =>
    let p := runSwitch args.flavour
    (Except.ok p.1, p.2)

/-- The result of `execute`, discarding the instrumentation trace. -/
def execute (args : Args) (elicitInput : Option ElicitChannel) :
    Except String ToolResult :=
  (executeTr args elicitInput).1

/-- A JSON value, sufficient for the schema objects appearing in the source. -/
inductive Json
  | str (s : String)
  | obj (fields : List (String × Json))
  | arr (items : List Json)

/-- Field lookup in a JSON object's field list. -/
def lookupKey : List (String × Json) → String → Option Json
  | [], _ => none
  | (k, v) :: rest, key => if k == key then some v else lookupKey rest key

/-- The value `z.enum([...]).describe(...)`: a Zod enum field, carrying its
allowed values and description. -/
structure ZodEnumField where
  values : List String
  description : String
deriving Repr

/-- A value built by `z.object({...})`: a Zod schema object. It is a distinct
runtime value, not a plain JSON schema of the `{type: "object", ...}` wire
shape. -/
structure ZodObjectSchema where
  fields : List (String × ZodEnumField)
deriving Repr

/-- The tool class (lines 26-114). It holds no instance state; all methods
return constants. -/
structure IceCreamToppingRecommenderTool where
deriving DecidableEq, Repr

/-- `getName` (lines 30-32). -/
def IceCreamToppingRecommenderTool.getName
    (_ : IceCreamToppingRecommenderTool) : String :=
  "ice_cream_topping_recommender"

/-- `getDescription` (lines 36-38). -/
def IceCreamToppingRecommenderTool.getDescription
    (_ : IceCreamToppingRecommenderTool) : String :=
  "Recommends the best ice cream toppings based on your selected flavour."

/-- `getInputSchema` (lines 42-48): returns the Zod schema object. -/
def IceCreamToppingRecommenderTool.getInputSchema
    (_ : IceCreamToppingRecommenderTool) : ZodObjectSchema :=
  { fields := [("flavour",
      { values := ["vanilla", "strawberry", "chocolate"],
        description := "Choose a flavour: vanilla, strawberry, or chocolate." })] }

/-- The value stored in a descriptor's `inputSchema` slot: the source stores
the raw Zod schema object there (line 155); `zodToJsonSchema` is imported but
never applied, so no JSON wire-shape value is ever produced for it. -/
inductive SchemaVal
  | zod (s : ZodObjectSchema)
  | json (j : Json)

/-- The declared wire shape: an object with `type` equal to "object", a
`properties` object in which each field is itself an object carrying a string
`type` (with optional enum and description), and a `required` array of strings
each naming one of the properties. -/
def isWireShapeJson : Json → Bool
  | Json.obj fields =>
    (match lookupKey fields "type" with
     | some (Json.str t) => t == "object"
     | _ => false)
    &&
    (match lookupKey fields "properties" with
     | some (Json.obj props) =>
       props.all (fun p =>
         match p.2 with
         | Json.obj pf =>
           (match lookupKey pf "type" with
            | some (Json.str _) => true
            | _ => false)
         | _ => false)
       &&
       (match lookupKey fields "required" with
        | some (Json.arr req) =>
          req.all (fun r =>
            match r with
            | Json.str nm => (lookupKey props nm).isSome
            | _ => false)
        | _ => false)
     | _ => false)
  | _ => false

/-- `true` exactly when the slot holds a JSON value of the declared schema
wire shape; a raw Zod schema object never is one. -/
def SchemaVal.isWire : SchemaVal → Bool
  | SchemaVal.json j => isWireShapeJson j
  | SchemaVal.zod _ => false

/-- A tool descriptor as listed to the caller: `{name, description,
inputSchema}` (lines 151-157). -/
structure ToolDescriptor where
  name : String
  description : String
  inputSchema : SchemaVal

/-- The server state the handlers can see: the `tool` field assigned once in
the constructor (line 140). Nothing in the source ever reassigns it, and the
handlers read only its constant methods. -/
structure ServerState where
  tool : IceCreamToppingRecommenderTool
deriving DecidableEq, Repr

/-- The server as constructed (lines 127-143). -/
def initialServer : ServerState := { tool := {} }

/-- The ListTools request handler (lines 149-159): builds the (singleton)
descriptor list afresh from the registered tool and touches no state. -/
def listTools (s : ServerState) : List ToolDescriptor × ServerState :=
  ([{ name := s.tool.getName,
      description := s.tool.getDescription,
      inputSchema := SchemaVal.zod s.tool.getInputSchema }], s)

/-- The descriptor the running server lists. -/
def iceCreamDescriptor : ToolDescriptor :=
  { name := "ice_cream_topping_recommender",
    description := "Recommends the best ice cream toppings based on your selected flavour.",
    inputSchema := SchemaVal.zod
      { fields := [("flavour",
          { values := ["vanilla", "strawberry", "chocolate"],
            description := "Choose a flavour: vanilla, strawberry, or chocolate." })] } }

/-- The hand-written JSON schema sent with the elicitation request
(lines 60-70). -/
def elicitationJsonSchema : Json :=
  Json.obj [
    ("type", Json.str "object"),
    ("properties", Json.obj [
      ("flavour", Json.obj [
        ("type", Json.str "string"),
        ("enum", Json.arr [Json.str "vanilla", Json.str "strawberry", Json.str "chocolate"]),
        ("description", Json.str "Choose a flavour: vanilla, strawberry, or chocolate.")])]),
    ("required", Json.arr [Json.str "flavour"])]

/-- The elicitation request `{message, requestedSchema}` (lines 71-74). -/
structure ElicitationRequest where
  message : String
  requestedSchema : Json

/-- The fixed request `execute` sends when it elicits. -/
def elicitRequest : ElicitationRequest :=
  { message := "Which ice cream flavour do you want toppings for? (vanilla, strawberry, or chocolate)",
    requestedSchema := elicitationJsonSchema }

/-- Extracts `properties.field.enum` from a schema JSON value. -/
def enumOfField (j : Json) (field : String) : Option Json :=
  match j with
  | Json.obj fs =>
    match lookupKey fs "properties" with
    | some (Json.obj props) =>
      match lookupKey props field with
      | some (Json.obj pf) => lookupKey pf "enum"
      | _ => none
    | _ => none
  | _ => none

/-- `IceCreamMcpServer.handleToolError` (lines 180-192): formats the caught
error (its message, for `Error` instances) into an error ToolResult naming the
tool. -/
def handleToolError (errorMessage : String) (name : String) : ToolResult :=
  { content := [Content.text
      ("‚ùå Error in " ++ name ++ ": " ++ errorMessage)],
    isError := true }

/-- The single registered tool instance. -/
def theTool : IceCreamToppingRecommenderTool := {}

/-- The CallTool request handler (lines 160-174): inside the try block it
throws `Unknown tool: ${name}` when the name does not match, otherwise runs
the tool with a bound elicitation channel; the catch converts any failure via
`handleToolError`, so the handler itself is a total function into
`ToolResult` — no exception escapes this boundary. -/
def invoke (name : String) (args : Args) (channel : ElicitChannel) : ToolResult :=
  if name == theTool.getName then
    match execute args (some channel) with
    | Except.ok r => r
    | Except.error e => handleToolError e name
  else
    handleToolError ("Unknown tool: " ++ name) name

/-- `true` when `needle` occurs as a contiguous run inside the second list. -/
def listContainsRun (needle : List Char) : List Char → Bool
  | [] => needle.isEmpty
  | c :: rest => needle.isPrefixOf (c :: rest) || listContainsRun needle rest

/-- `true` when `pat` occurs as a contiguous substring of `s` (on the
character lists). -/
def textContains (pat s : String) : Bool :=
  listContainsRun pat.data s.data

/-- `true` when no `elicit` event occurs after a `produce` event in the
trace. -/
def noElicitAfterProduce : List Event → Bool
  | [] => true
  | Event.produce :: rest =>
      rest.all (fun ev => ev != Event.elicit) && noElicitAfterProduce rest
  | _ :: rest => noElicitAfterProduce rest

/-- The trace of the switch block is always exactly a lookup followed by the
result production. -/
theorem runSwitch_trace (f : Option String) :
    (runSwitch f).2 = [Event.lookup, Event.produce] := by
  unfold runSwitch
  cases f with
  | none => rfl
  | some v => cases h : toppingsFor v <;> simp only [h]

/-- C1: for each of the three declared flavours, `execute` with that flavour
returns, whatever the channel, a single text block carrying exactly that
flavour's fixed three toppings, comma-joined in their declared order, with
`isError = false` (the source omits the field on success; absent reads as
false). -/
theorem execute_declared_flavours (ch : Option ElicitChannel) :
    execute { flavour := some "vanilla" } ch = Except.ok { content := [Content.text "üç¶ For vanilla ice cream, the best toppings are: caramel sauce, rainbow sprinkles, crushed cookies."], isError := false }
    ∧ execute { flavour := some "strawberry" } ch = Except.ok { content := [Content.text "üç¶ For strawberry ice cream, the best toppings are: white chocolate chips, fresh berries, whipped cream."], isError := false }
    ∧ execute { flavour := some "chocolate" } ch = Except.ok { content := [Content.text "üç¶ For chocolate ice cream, the best toppings are: chopped nuts, marshmallows, hot fudge."], isError := false } := by
  refine ⟨?_, ?_, ?_⟩ <;> cases ch <;> rfl

/-- Witness for C1, instantiated with no channel. -/
theorem execute_declared_flavours_witness :
    execute { flavour := some "vanilla" } none = Except.ok { content := [Content.text "üç¶ For vanilla ice cream, the best toppings are: caramel sauce, rainbow sprinkles, crushed cookies."], isError := false }
    ∧ execute { flavour := some "strawberry" } none = Except.ok { content := [Content.text "üç¶ For strawberry ice cream, the best toppings are: white chocolate chips, fresh berries, whipped cream."], isError := false }
    ∧ execute { flavour := some "chocolate" } none = Except.ok { content := [Content.text "üç¶ For chocolate ice cream, the best toppings are: chopped nuts, marshmallows, hot fudge."], isError := false } :=
  execute_declared_flavours none

/-- C2: round-trip equivalence — for every declared flavour v, calling with no
flavour and a channel that answers Accepted with content flavour v yields the
same result as passing v directly (with any channel). -/
theorem execute_elicited_roundtrip (v : String) (ch : Option ElicitChannel)
    (hv : v ∈ ["vanilla", "strawberry", "chocolate"]) :
    execute { flavour := none }
        (some (Except.ok (ElicitResponse.accept (some v)))) =
      execute { flavour := some v } ch := by
  fin_cases hv <;> cases ch <;> rfl

/-- Witness for C2 at v = "vanilla" with no channel on the direct side. -/
theorem execute_elicited_roundtrip_witness :
    "vanilla" ∈ ["vanilla", "strawberry", "chocolate"]
    ∧ execute { flavour := none }
        (some (Except.ok (ElicitResponse.accept (some "vanilla")))) =
      execute { flavour := some "vanilla" } none :=
  ⟨by simp, execute_elicited_roundtrip "vanilla" none (by simp)⟩

/-- C3 counterexample: `execute` at the out-of-set flavour "mango" yields the
fixed text "Unknown flavour.", which does not contain the invalid value
"mango" — against the claim that the error text names the invalid value. -/
theorem execute_invalid_flavour_counterexample :
    execute { flavour := some "mango" } none = Except.ok { content := [Content.text "‚ùå Unknown flavour."], isError := true }
    ∧ textContains "mango" "‚ùå Unknown flavour." = false :=
  ⟨rfl, by decide⟩

/-- C3 amended: for a present, non-empty flavour outside the enumerated set,
`execute` returns `isError = true` with the fixed text "Unknown flavour."
(which does not name the offending value), and the elicitation channel is
never called: the trace holds no elicit event. -/
theorem execute_invalid_flavour_unknown (v : String) (ch : Option ElicitChannel)
    (hv : toppingsFor v = none) (hne : v ≠ "") :
    executeTr { flavour := some v } ch =
      (Except.ok unknownFlavourResult, [Event.lookup, Event.produce])
    ∧ Event.elicit ∉ [Event.lookup, Event.produce] := by
  have ht : truthy (some v) = true := by simp [truthy, hne]
  refine ⟨?_, by decide⟩
  cases ch with
  | none => simp only [executeTr, runSwitch, hv]
  | some c => simp only [executeTr, ht, if_true, runSwitch, hv]

/-- Witness for C3's amended theorem at v = "mango". -/
theorem execute_invalid_flavour_unknown_witness :
    toppingsFor "mango" = none ∧ "mango" ≠ ""
    ∧ (executeTr { flavour := some "mango" } none =
        (Except.ok unknownFlavourResult, [Event.lookup, Event.produce])
      ∧ Event.elicit ∉ [Event.lookup, Event.produce]) :=
  ⟨rfl, by decide, execute_invalid_flavour_unknown "mango" none rfl (by decide)⟩

/-- C4 counterexample: an elicitation Accepted with the invalid value "mango"
flows into the lookup and yields the unknown-flavour text, with isError=true
but not a text explaining cancellation or no selection, against the claim that
every Accepted-but-invalid outcome gets the cancellation/no-selection text. -/
theorem accept_invalid_counterexample :
    execute { flavour := none } (some (Except.ok (ElicitResponse.accept (some "mango")))) = Except.ok { content := [Content.text "‚ùå Unknown flavour."], isError := true }
    ∧ ("‚ùå Unknown flavour." == "‚ùå Cancelled by user or no flavour selected.") = false :=
  ⟨rfl, rfl⟩

/-- C4 amended: when the channel answers Accepted with an absent or falsy
flavour value, or Declined, or Cancelled, execute returns isError=true with
the cancellation/no-selection text; when it answers Accepted with a present
non-empty value outside the enumerated set, execute still returns
isError=true, but with the unknown-flavour text instead. -/
theorem elicitation_failure_paths (c : Option String) (v : String)
    (hc : truthy c = false) (hv : toppingsFor v = none) (hne : v ≠ "") :
    execute { flavour := none } (some (Except.ok (ElicitResponse.accept c))) = Except.ok cancelledResult
    ∧ execute { flavour := none } (some (Except.ok ElicitResponse.decline)) = Except.ok cancelledResult
    ∧ execute { flavour := none } (some (Except.ok ElicitResponse.cancel)) = Except.ok cancelledResult
    ∧ execute { flavour := none } (some (Except.ok (ElicitResponse.accept (some v)))) = Except.ok unknownFlavourResult
    ∧ cancelledResult.isError = true ∧ unknownFlavourResult.isError = true := by
  have ht : truthy (some v) = true := by simp [truthy, hne]
  refine ⟨?_, rfl, rfl, ?_, rfl, rfl⟩
  · simp [execute, executeTr, hc, show truthy none = false from rfl]
  · simp [execute, executeTr, truthy, runSwitch, hv, hne]

/-- Witness for C4's amended theorem at c = none (content without a flavour
field) and v = "mango". -/
theorem elicitation_failure_paths_witness :
    truthy none = false ∧ toppingsFor "mango" = none ∧ "mango" ≠ ""
    ∧ (execute { flavour := none } (some (Except.ok (ElicitResponse.accept none))) = Except.ok cancelledResult
      ∧ execute { flavour := none } (some (Except.ok ElicitResponse.decline)) = Except.ok cancelledResult
      ∧ execute { flavour := none } (some (Except.ok ElicitResponse.cancel)) = Except.ok cancelledResult
      ∧ execute { flavour := none } (some (Except.ok (ElicitResponse.accept (some "mango")))) = Except.ok unknownFlavourResult
      ∧ cancelledResult.isError = true ∧ unknownFlavourResult.isError = true) :=
  ⟨rfl, rfl, by decide, elicitation_failure_paths none "mango" rfl rfl (by decide)⟩

/-- C5: the dispatcher boundary — an invoke naming a non-registered tool
yields an isError=true result whose text names the unknown tool, and any
exception thrown during tool execution (here: by the elicitation channel) is
caught and converted into an isError=true result carrying the tool name and
the failure description. `invoke` is a total function into `ToolResult`, so
no exception escapes this boundary. -/
theorem dispatcher_catches_errors (name : String) (args args2 : Args)
    (ch ch2 : ElicitChannel) (e : String)
    (hname : name ≠ "ice_cream_topping_recommender")
    (he : execute args2 (some ch2) = Except.error e) :
    invoke name args ch = { content := [Content.text ("‚ùå Error in " ++ name ++ ": " ++ ("Unknown tool: " ++ name))], isError := true }
    ∧ invoke "ice_cream_topping_recommender" args2 ch2 = { content := [Content.text ("‚ùå Error in " ++ "ice_cream_topping_recommender" ++ ": " ++ e)], isError := true } := by
  constructor
  · have hbeq : (name == theTool.getName) = false := by
      simp [theTool, IceCreamToppingRecommenderTool.getName, hname]
    simp [invoke, hbeq, handleToolError]
  · have hbeq : (("ice_cream_topping_recommender" : String) == theTool.getName) = true := rfl
    simp [invoke, hbeq, he, handleToolError]

/-- Witness for C5 at tool name "nonexistent" and a channel throwing "boom". -/
theorem dispatcher_catches_errors_witness :
    "nonexistent" ≠ "ice_cream_topping_recommender"
    ∧ execute { flavour := none } (some (Except.error "boom")) = Except.error "boom"
    ∧ (invoke "nonexistent" { flavour := none } (Except.error "boom") = { content := [Content.text ("‚ùå Error in " ++ "nonexistent" ++ ": Unknown tool: " ++ "nonexistent")], isError := true }
      ∧ invoke "ice_cream_topping_recommender" { flavour := none } (Except.error "boom") = { content := [Content.text ("‚ùå Error in " ++ "ice_cream_topping_recommender" ++ ": " ++ "boom")], isError := true }) :=
  ⟨by decide, rfl,
    dispatcher_catches_errors "nonexistent" { flavour := none } { flavour := none }
      (Except.error "boom") (Except.error "boom") "boom" (by decide) rfl⟩

/-- C6: with no flavour argument and a channel answering Cancelled or
Declined, execute returns the cancellation text with isError=true; the trace
holds no lookup event (the recommendation lookup is never invoked) and exactly
one elicit event (the elicitation is never retried) — the outcome is terminal
for the invocation. -/
theorem cancelled_is_terminal (resp : ElicitResponse)
    (hr : resp = ElicitResponse.cancel ∨ resp = ElicitResponse.decline) :
    executeTr { flavour := none } (some (Except.ok resp)) = (Except.ok cancelledResult, [Event.elicit, Event.produce])
    ∧ cancelledResult.isError = true
    ∧ Event.lookup ∉ [Event.elicit, Event.produce]
    ∧ [Event.elicit, Event.produce].count Event.elicit = 1 := by
  rcases hr with rfl | rfl
  · exact ⟨rfl, rfl, by decide, by decide⟩
  · exact ⟨rfl, rfl, by decide, by decide⟩

/-- Witness for C6 at a Cancelled response. -/
theorem cancelled_is_terminal_witness :
    (ElicitResponse.cancel = ElicitResponse.cancel ∨ ElicitResponse.cancel = ElicitResponse.decline)
    ∧ (executeTr { flavour := none } (some (Except.ok ElicitResponse.cancel)) = (Except.ok cancelledResult, [Event.elicit, Event.produce])
      ∧ cancelledResult.isError = true
      ∧ Event.lookup ∉ [Event.elicit, Event.produce]
      ∧ [Event.elicit, Event.produce].count Event.elicit = 1) :=
  ⟨Or.inl rfl, cancelled_is_terminal ElicitResponse.cancel (Or.inl rfl)⟩

/-- Every run of the tool leaves one of four traces: a direct lookup, a
single elicitation that throws, a single elicitation that fails the
invocation, or a single elicitation followed by the lookup. -/
theorem executeTr_trace_cases (args : Args) (ch : Option ElicitChannel) :
    (executeTr args ch).2 = [Event.lookup, Event.produce]
    ∨ (executeTr args ch).2 = [Event.elicit]
    ∨ (executeTr args ch).2 = [Event.elicit, Event.produce]
    ∨ (executeTr args ch).2 = [Event.elicit, Event.lookup, Event.produce] := by
  rcases ch with _ | c
  · exact Or.inl (by simp only [executeTr, runSwitch_trace])
  · cases hb : truthy args.flavour with
    | true => exact Or.inl (by simp [executeTr, hb, runSwitch_trace])
    | false =>
      rcases c with e | c' | _ | _
      · exact Or.inr (Or.inl (by simp [executeTr, hb]))
      · cases hb2 : truthy c' with
        | true =>
          exact Or.inr (Or.inr (Or.inr (by simp [executeTr, hb, hb2, runSwitch_trace])))
        | false =>
          exact Or.inr (Or.inr (Or.inl (by simp [executeTr, hb, hb2])))
      · exact Or.inr (Or.inr (Or.inl (by simp [executeTr, hb])))
      · exact Or.inr (Or.inr (Or.inl (by simp [executeTr, hb])))

/-- C7: in every execution path of the tool, the trace never holds two elicit
events (the elicitation channel is invoked at most once per invocation), and
no elicit event ever follows a produce event — any elicitation happens
strictly before the tool produces its final ToolResult; there is no loop or
retry on Accepted-but-invalid content. -/
theorem elicit_at_most_once (args : Args) (ch : Option ElicitChannel) :
    (executeTr args ch).2.count Event.elicit ≤ 1
    ∧ noElicitAfterProduce (executeTr args ch).2 = true := by
  rcases executeTr_trace_cases args ch with h | h | h | h <;> rw [h] <;>
    exact ⟨by decide, by decide⟩

/-- Witness for C7 at an empty argument object with a cancelling channel. -/
theorem elicit_at_most_once_witness :
    (executeTr { flavour := none } (some (Except.ok ElicitResponse.cancel))).2.count Event.elicit ≤ 1
    ∧ noElicitAfterProduce (executeTr { flavour := none } (some (Except.ok ElicitResponse.cancel))).2 = true :=
  elicit_at_most_once { flavour := none } (some (Except.ok ElicitResponse.cancel))

/-- C8: listTools is effect-free and idempotent — it returns the server state
unchanged, a repeated call returns the identical descriptor list, and for any
state the list is the fixed singleton descriptor (name, description,
inputSchema) in registration order. As a total Lean function it cannot
fail. -/
theorem listTools_idempotent (s : ServerState) :
    (listTools s).2 = s
    ∧ (listTools ((listTools s).2)).1 = (listTools s).1
    ∧ (listTools s).1 = [iceCreamDescriptor] :=
  ⟨rfl, rfl, rfl⟩

/-- Witness for C8 at the server as constructed. -/
theorem listTools_idempotent_witness :
    (listTools initialServer).2 = initialServer
    ∧ (listTools ((listTools initialServer).2)).1 = (listTools initialServer).1
    ∧ (listTools initialServer).1 = [iceCreamDescriptor] :=
  listTools_idempotent initialServer

/-- C9 evaluation: the requestedSchema of the elicitation request conforms to
the declared wire shape and carries the enumerated flavour domain, but the
inputSchema carried in the list-tools response is the raw Zod schema object —
`zodToJsonSchema` is imported yet never applied — which is not a JSON value of
the declared `{type: "object", properties, required}` wire shape at all. -/
theorem schema_wire_shape_eval :
    isWireShapeJson elicitRequest.requestedSchema = true
    ∧ enumOfField elicitRequest.requestedSchema "flavour" = some (Json.arr [Json.str "vanilla", Json.str "strawberry", Json.str "chocolate"])
    ∧ (listTools initialServer).1 = [iceCreamDescriptor]
    ∧ SchemaVal.isWire iceCreamDescriptor.inputSchema = false :=
  ⟨rfl, rfl, rfl, rfl⟩

/-- C10: a present but empty flavour value ("" is falsy in JavaScript) behaves
exactly as an absent field: executeTr gives identical results and traces for
both; with a channel present the empty value triggers elicitation (an elicit
event occurs) instead of being rejected as invalid; with no channel it falls
through to the unknown-flavour error result. -/
theorem empty_flavour_treated_as_absent (ch : Option ElicitChannel) (c : ElicitChannel) :
    executeTr { flavour := some "" } ch = executeTr { flavour := none } ch
    ∧ Event.elicit ∈ (executeTr { flavour := some "" } (some c)).2
    ∧ executeTr { flavour := some "" } none = (Except.ok unknownFlavourResult, [Event.lookup, Event.produce]) := by
  have h0 : truthy (some "") = false := rfl
  refine ⟨?_, ?_, rfl⟩
  · rcases ch with _ | c' <;> rfl
  · rcases c with e | c' | _ | _
    · simp [executeTr, h0]
    · cases hb : truthy c' with
      | true => simp [executeTr, h0, hb]
      | false => simp [executeTr, h0, hb]
    · simp [executeTr, h0]
    · simp [executeTr, h0]

/-- Witness for C10 with no channel on the first component and a cancelling
channel on the second. -/
theorem empty_flavour_treated_as_absent_witness :
    executeTr { flavour := some "" } none = executeTr { flavour := none } none
    ∧ Event.elicit ∈ (executeTr { flavour := some "" } (some (Except.ok ElicitResponse.cancel))).2
    ∧ executeTr { flavour := some "" } none = (Except.ok unknownFlavourResult, [Event.lookup, Event.produce]) :=
  ⟨(empty_flavour_treated_as_absent none (Except.ok ElicitResponse.cancel)).1,
   (empty_flavour_treated_as_absent none (Except.ok ElicitResponse.cancel)).2.1,
   (empty_flavour_treated_as_absent none (Except.ok ElicitResponse.cancel)).2.2⟩

end IceCream
